import Mathlib

/-!
PointerComponent.cpp : the constructor `PointerExampleInCPP::PointerExampleInCPP`

A shallow embedding of the one routine of the repository and the properties
its specification states about it.

Modelling choices, all of them visible in the definitions below.

* A `float` is modelled by the rational number it denotes.  The routine only
  stores the results of `(float)i`; `floatOfInt` is that conversion, with the
  round-to-nearest-even of a 24-bit significand, and is exact below `2 ^ 24`.
* A `float *` is a byte address.  Adding `n` to it moves `n` elements.
* An `unsigned long` is a natural number below `2 ^ w`; `w` is a parameter and
  every operation on such a value is taken modulo `2 ^ w`, the sum with
  `sizeof(float)` included.  A block at `base` is addressable by such a value
  when `base + 40 ≤ 2 ^ w`; the theorems about the cast-based reads carry this
  hypothesis, under which no operation wraps.
* The `new float[numFloats]` block is a base address, chosen by the allocator
  and therefore a parameter, and a list of cells whose initial contents are
  indeterminate and therefore a parameter too.
* A dereference is checked: it succeeds only at an element-aligned address
  inside the block.  The routine is a function into `Option`.
* The `int` variables `numFloats` and `i` only take the values `0 .. 10`; they
  are natural numbers.
* `numFloats`, `myFloatPtr` and `myOtherFloatPtr` are initialised where they
  are declared and never assigned again: they are values, passed to the lines
  that use them.  The block, `floatArrayAddress` and `doesItEqualOne` are
  assigned repeatedly: they are the state.
* Two fields of the state are ghost: the log of the values assigned to
  `doesItEqualOne` and the log of the dereferenced addresses, each entry with
  the source line that made it.
-/

namespace PointerComponent

/-- The value denoted by a `float`. -/
abbrev Float32 := ℚ

/-- The constant `sizeof(float)`. -/
def sizeofFloat : Nat := 4

/-- Nearest natural number with at most 24 significant bits, ties to even:
what a conversion to `float` does to the magnitude of an integer. -/
def roundToSignificand (n : Nat) : Nat :=
  if n < 2 ^ 24 then n
  else
    let s := Nat.log2 n - 23
    let q := n / 2 ^ s
    let r := n % 2 ^ s
    let half := 2 ^ (s - 1)
    let q1 := if half < r ∨ (r = half ∧ q % 2 = 1) then q + 1 else q
    q1 * 2 ^ s

/-- The cast `(float)i` of a non-negative `int`. -/
def floatOfInt (i : Nat) : Float32 := (roundToSignificand i : ℚ)

/-- A value of type `float *`: the byte address it holds. -/
structure FloatPtr where
  addr : Nat
deriving DecidableEq, Repr

/-- Pointer arithmetic `p + n` on a `float *`: `n` elements forward. -/
def ptrAdd (p : FloatPtr) (n : Nat) : FloatPtr := ⟨p.addr + n * sizeofFloat⟩

/-- The place `p[i]` designates; `&p[i]` is this pointer. -/
def elemAddr (p : FloatPtr) (i : Nat) : FloatPtr := ptrAdd p i

/-- The cast `(unsigned long) p`, for an `unsigned long` of `w` bits. -/
def ptrToULong (w : Nat) (p : FloatPtr) : Nat := p.addr % 2 ^ w

/-- The cast `(float *) a` of an `unsigned long`. -/
def ulongToPtr (a : Nat) : FloatPtr := ⟨a⟩

/-- Addition of two `unsigned long` values of `w` bits. -/
def ulongAdd (w a n : Nat) : Nat := (a + n) % 2 ^ w

/-- The block returned by `new float[n]`. -/
structure Heap where
  base : Nat
  cells : List Float32
deriving DecidableEq, Repr

/-- The expression `new float[n]` placing the block at `base`; cell `k` starts
with the indeterminate value `garbage k`. -/
def newFloatArray (base : Nat) (garbage : Nat → Float32) (n : Nat) : Heap × FloatPtr :=
  (⟨base, (List.range n).map garbage⟩, ⟨base⟩)

/-- The element of the block a pointer designates: `none` below the block,
at a byte offset that is no multiple of the element size, or past the end. -/
def Heap.elementIndex (h : Heap) (p : FloatPtr) : Option Nat :=
  if h.base ≤ p.addr ∧ (p.addr - h.base) % sizeofFloat = 0
      ∧ (p.addr - h.base) / sizeofFloat < h.cells.length
  then some ((p.addr - h.base) / sizeofFloat)
  else none

/-- One dereference, as logged. -/
structure Access where
  line : Nat
  isWrite : Bool
  addr : Nat
deriving DecidableEq, Repr

/-- The block, the two locals the routine assigns repeatedly, and the two
ghost logs.  A local is `none` until its declaration has run. -/
structure State where
  heap : Heap
  floatArrayAddress : Option Nat
  doesItEqualOne : Option Float32
  assigned : List (Nat × Float32)
  accessed : List Access
deriving DecidableEq

/-- Read through a pointer at source line `line`. -/
def State.load (s : State) (line : Nat) (p : FloatPtr) : Option (Float32 × State) :=
  match s.heap.elementIndex p with
  | none => none
  | some k =>
    match s.heap.cells[k]? with
    | none => none
    | some v => some (v, { s with accessed := s.accessed ++ [⟨line, false, p.addr⟩] })

/-- Write through a pointer at source line `line`. -/
def State.store (s : State) (line : Nat) (p : FloatPtr) (v : Float32) : Option State :=
  match s.heap.elementIndex p with
  | none => none
  | some k =>
    some { s with
      heap := { s.heap with cells := s.heap.cells.set k v }
      accessed := s.accessed ++ [⟨line, true, p.addr⟩] }

/-- Assignment to `doesItEqualOne` at source line `line`. -/
def State.assign (s : State) (line : Nat) (v : Float32) : State :=
  { s with doesItEqualOne := some v, assigned := s.assigned ++ [(line, v)] }

/-- Assignment of the value read through `p` to `doesItEqualOne`, at source
line `line`: the shape of every read of the routine. -/
def State.readInto (s : State) (line : Nat) (p : FloatPtr) : Option State :=
  match s.load line p with
  | none => none
  | some (v, s1) => some (s1.assign line v)

/-- Lines 15-16: `for( int i=0; i<numFloats; ++i ) myFloatPtr[i] = (float)i;`
from the current value of `i`. -/
def loop15 (numFloats : Nat) (myFloatPtr : FloatPtr) (i : Nat) (s : State) : Option State :=
  if i < numFloats then
    match s.store 16 (elemAddr myFloatPtr i) (floatOfInt i) with
    | none => none
    | some s1 => loop15 numFloats myFloatPtr (i + 1) s1
  else some s
termination_by numFloats - i

/-- Lines 11-16: `int numFloats = 10; float * myFloatPtr = new float[numFloats];`
and the initialisation loop.  The result is `myFloatPtr` and the state. -/
def allocAndInit (base : Nat) (garbage : Nat → Float32) : Option (FloatPtr × State) :=
  let numFloats := 10
  let r := newFloatArray base garbage numFloats
  let myFloatPtr := r.2
  match loop15 numFloats myFloatPtr 0
      { heap := r.1, floatArrayAddress := none, doesItEqualOne := none,
        assigned := [], accessed := [] } with
  | none => none
  | some s => some (myFloatPtr, s)

/-- Line 21: `unsigned long floatArrayAddress = (unsigned long) myFloatPtr;` -/
def line21 (w : Nat) (myFloatPtr : FloatPtr) (s : State) : State :=
  { s with floatArrayAddress := some (ptrToULong w myFloatPtr) }

/-- Line 27: `floatArrayAddress += sizeof(float);` -/
def line27 (w : Nat) (s : State) : Option State :=
  match s.floatArrayAddress with
  | none => none
  | some a => some { s with floatArrayAddress := some (ulongAdd w a sizeofFloat) }

/-- Line 31: `float * myOtherFloatPtr = (float *)floatArrayAddress;`
The result is `myOtherFloatPtr`. -/
def line31 (s : State) : Option FloatPtr :=
  match s.floatArrayAddress with
  | none => none
  | some a => some (ulongToPtr a)

/-- Line 32: `float doesItEqualOne = myOtherFloatPtr[0];` -/
def line32 (myOtherFloatPtr : FloatPtr) (s : State) : Option State :=
  s.readInto 32 (elemAddr myOtherFloatPtr 0)

/-- Line 39: `doesItEqualOne = ((float *)floatArrayAddress)[0];` -/
def line39 (s : State) : Option State :=
  match s.floatArrayAddress with
  | none => none
  | some a => s.readInto 39 (elemAddr (ulongToPtr a) 0)

/-- Line 44: `doesItEqualOne = *myOtherFloatPtr;` -/
def line44 (myOtherFloatPtr : FloatPtr) (s : State) : Option State :=
  s.readInto 44 myOtherFloatPtr

/-- Line 51: `doesItEqualOne = *(float *)floatArrayAddress;` -/
def line51 (s : State) : Option State :=
  match s.floatArrayAddress with
  | none => none
  | some a => s.readInto 51 (ulongToPtr a)

/-- Line 55: `floatArrayAddress = (unsigned long) myFloatPtr;` -/
def line55 (w : Nat) (myFloatPtr : FloatPtr) (s : State) : State :=
  { s with floatArrayAddress := some (ptrToULong w myFloatPtr) }

/-- The pointer of line 56, `(float *) (floatArrayAddress + sizeof(float))`:
the byte count is added to the integer, then the sum is cast.  The sum is
taken at the `w` bits of `unsigned long`; where `size_t` is wider the sum of
the source does not wrap, and the two differ only when the sum reaches
`2 ^ w`. -/
def offsetThenCast (w a : Nat) : FloatPtr := ulongToPtr (ulongAdd w a sizeofFloat)

/-- The pointer of line 61, `((float *)floatArrayAddress) + sizeof(float)`:
the integer is cast, then the byte count is added to the pointer. -/
def castThenOffset (a : Nat) : FloatPtr := ptrAdd (ulongToPtr a) sizeofFloat

/-- Line 56: `doesItEqualOne = *((float *) (floatArrayAddress + sizeof(float)));` -/
def line56 (w : Nat) (s : State) : Option State :=
  match s.floatArrayAddress with
  | none => none
  | some a => s.readInto 56 (offsetThenCast w a)

/-- Line 61: `doesItEqualOne = *(((float *)floatArrayAddress) + sizeof(float));` -/
def line61 (s : State) : Option State :=
  match s.floatArrayAddress with
  | none => none
  | some a => s.readInto 61 (castThenOffset a)

/-- Line 70: `doesItEqualOne = *(myFloatPtr + 1);` -/
def line70 (myFloatPtr : FloatPtr) (s : State) : Option State :=
  s.readInto 70 (ptrAdd myFloatPtr 1)

/-- Line 73: `doesItEqualOne = myFloatPtr[1];` -/
def line73 (myFloatPtr : FloatPtr) (s : State) : Option State :=
  s.readInto 73 (elemAddr myFloatPtr 1)

/-- Line 82: `floatArrayAddress = (unsigned long) &myFloatPtr[0];` -/
def line82 (w : Nat) (myFloatPtr : FloatPtr) (s : State) : State :=
  { s with floatArrayAddress := some (ptrToULong w (elemAddr myFloatPtr 0)) }

/-- Line 86: `floatArrayAddress = (unsigned long) myFloatPtr;` -/
def line86 (w : Nat) (myFloatPtr : FloatPtr) (s : State) : State :=
  { s with floatArrayAddress := some (ptrToULong w myFloatPtr) }

/-- Line 89: `floatArrayAddress = (unsigned long) (myFloatPtr + 1);` -/
def line89 (w : Nat) (myFloatPtr : FloatPtr) (s : State) : State :=
  { s with floatArrayAddress := some (ptrToULong w (ptrAdd myFloatPtr 1)) }

/-- Line 90: `floatArrayAddress = (unsigned long) &myFloatPtr[1];` -/
def line90 (w : Nat) (myFloatPtr : FloatPtr) (s : State) : State :=
  { s with floatArrayAddress := some (ptrToULong w (elemAddr myFloatPtr 1)) }

/-- Line 91: `floatArrayAddress = (unsigned long) myFloatPtr + sizeof(float);` -/
def line91 (w : Nat) (myFloatPtr : FloatPtr) (s : State) : State :=
  { s with floatArrayAddress := some (ulongAdd w (ptrToULong w myFloatPtr) sizeofFloat) }

/-- Lines 21-91: everything after the initialisation loop. -/
def demonstrate (w : Nat) (myFloatPtr : FloatPtr) (s : State) : Option State := do
  let s := line21 w myFloatPtr s
  let s ← line27 w s
  let myOtherFloatPtr ← line31 s
  let s ← line32 myOtherFloatPtr s
  let s ← line39 s
  let s ← line44 myOtherFloatPtr s
  let s ← line51 s
  let s := line55 w myFloatPtr s
  let s ← line56 w s
  let s ← line61 s
  let s ← line70 myFloatPtr s
  let s ← line73 myFloatPtr s
  let s := line82 w myFloatPtr s
  let s := line86 w myFloatPtr s
  let s := line89 w myFloatPtr s
  let s := line90 w myFloatPtr s
  let s := line91 w myFloatPtr s
  pure s

/-- The constructor `PointerExampleInCPP::PointerExampleInCPP()`. -/
def PointerExampleInCPP (w base : Nat) (garbage : Nat → Float32) : Option State :=
  match allocAndInit base garbage with
  | none => none
  | some (myFloatPtr, s) => demonstrate w myFloatPtr s

/-- The values assigned to `doesItEqualOne`, in program order. -/
def State.scratchValues (s : State) : List Float32 := s.assigned.map Prod.snd

/-- The initialised buffer `[0.0, 1.0, ..., 9.0]`. -/
def initialised : List Float32 := (List.range 10).map floatOfInt

/-- The state the initialisation loop leaves, for a block at `base`. -/
def afterInit (base : Nat) : State :=
  { heap := ⟨base, initialised⟩,
    floatArrayAddress := none, doesItEqualOne := none,
    assigned := [],
    accessed := (List.range 10).map (fun i => ⟨16, true, base + i * sizeofFloat⟩) }

/-- The state the routine ends in, for a block at `base`. -/
def finalState (base : Nat) : State :=
  { afterInit base with
    floatArrayAddress := some (base + 4),
    doesItEqualOne := some 1,
    assigned := [(32, 1), (39, 1), (44, 1), (51, 1), (56, 1), (61, 4), (70, 1), (73, 1)],
    accessed := (afterInit base).accessed ++
      [⟨32, false, base + 4⟩, ⟨39, false, base + 4⟩, ⟨44, false, base + 4⟩,
       ⟨51, false, base + 4⟩, ⟨56, false, base + 4⟩, ⟨61, false, base + 16⟩,
       ⟨70, false, base + 4⟩, ⟨73, false, base + 4⟩] }

/-! ## Evaluation lemmas -/

theorem roundToSignificand_small (n : Nat) (h : n < 2 ^ 24) : roundToSignificand n = n := by
  unfold roundToSignificand
  rw [if_pos h]

theorem floatOfInt_small (n : Nat) (h : n < 2 ^ 24) : floatOfInt n = (n : ℚ) := by
  unfold floatOfInt
  rw [roundToSignificand_small n h]

theorem range_ten : List.range 10 = [0, 1, 2, 3, 4, 5, 6, 7, 8, 9] := by decide

theorem initialised_eq : initialised = [0, 1, 2, 3, 4, 5, 6, 7, 8, 9] := by
  unfold initialised
  rw [range_ten]
  simp [floatOfInt_small]

theorem allocAndInit_eq (base : Nat) (garbage : Nat → Float32) :
    allocAndInit base garbage = some (⟨base⟩, afterInit base) := by
  unfold allocAndInit newFloatArray afterInit
  simp only [range_ten, initialised_eq]
  simp [loop15, State.store, elemAddr, ptrAdd, Heap.elementIndex, sizeofFloat, floatOfInt_small]

theorem mod_of_fits (w base k : Nat) (h : base + 40 ≤ 2 ^ w) (hk : k < 40) :
    (base + k) % 2 ^ w = base + k :=
  Nat.mod_eq_of_lt (by omega)

theorem demonstrate_eq (w base : Nat) (h : base + 40 ≤ 2 ^ w) :
    demonstrate w ⟨base⟩ (afterInit base) = some (finalState base) := by
  have h0 : base % 2 ^ w = base := by simpa using mod_of_fits w base 0 h (by decide)
  have h4 : (base + 4) % 2 ^ w = base + 4 := mod_of_fits w base 4 h (by decide)
  simp [demonstrate, afterInit, finalState, line21, line27, line31, line32, line39, line44,
    line51, line55, line56, line61, line70, line73, line82, line86, line89, line90, line91,
    State.readInto, State.load, State.assign, elemAddr, ptrAdd, ptrToULong, ulongToPtr, ulongAdd,
    offsetThenCast, castThenOffset, Heap.elementIndex, sizeofFloat, initialised_eq, h0, h4]

theorem run_eq (w base : Nat) (garbage : Nat → Float32) (h : base + 40 ≤ 2 ^ w) :
    PointerExampleInCPP w base garbage = some (finalState base) := by
  unfold PointerExampleInCPP
  rw [allocAndInit_eq]
  exact demonstrate_eq w base h

/-- The hypothesis of `run_eq` cannot be dropped: with a 32-bit address value
and a block at address `2 ^ 32 - 4`, line 27 wraps the address value to 0 and
the read of line 32 is outside the block. -/
theorem run_unaddressable :
    PointerExampleInCPP 32 (2 ^ 32 - 4) (fun _ => 0) = none := by
  unfold PointerExampleInCPP
  rw [allocAndInit_eq]
  simp [demonstrate, line21, line27, line31, line32, State.readInto, State.load, elemAddr,
    ptrAdd, ptrToULong, ulongToPtr, ulongAdd, Heap.elementIndex, sizeofFloat, afterInit]

theorem readInto_heap (s s1 : State) (line : Nat) (p : FloatPtr)
    (h : s.readInto line p = some s1) : s1.heap = s.heap := by
  unfold State.readInto State.load at h
  cases hk : s.heap.elementIndex p with
  | none => simp [hk] at h
  | some k =>
    cases hv : s.heap.cells[k]? with
    | none => simp [hk, hv] at h
    | some v =>
      simp [hk, hv, State.assign] at h
      rw [← h]

theorem demonstrate_heap (w : Nat) (myFloatPtr : FloatPtr) (s s1 : State)
    (h : demonstrate w myFloatPtr s = some s1) : s1.heap = s.heap := by
  simp only [demonstrate, bind, Option.bind_eq_some, pure] at h
  obtain ⟨a, ha, q, hq, b, hb, c, hc, d, hd, e, he, f, hf, g, hg, i, hi, j, hj, hfin⟩ := h
  have e1 : a.heap = s.heap := by
    unfold line27 line21 at ha
    simp at ha
    rw [← ha]
  have e2 : b.heap = a.heap := readInto_heap _ _ _ _ hb
  have e3 : c.heap = b.heap := by
    unfold line39 at hc
    cases hx : b.floatArrayAddress with
    | none => simp [hx] at hc
    | some x => rw [hx] at hc; exact readInto_heap _ _ _ _ hc
  have e4 : d.heap = c.heap := readInto_heap _ _ _ _ hd
  have e5 : e.heap = d.heap := by
    unfold line51 at he
    cases hx : d.floatArrayAddress with
    | none => simp [hx] at he
    | some x => rw [hx] at he; exact readInto_heap _ _ _ _ he
  have e6 : f.heap = e.heap := by
    unfold line56 line55 at hf
    simp at hf
    exact (readInto_heap _ _ _ _ hf).trans rfl
  have e7 : g.heap = f.heap := by
    unfold line61 at hg
    cases hx : f.floatArrayAddress with
    | none => simp [hx] at hg
    | some x => rw [hx] at hg; exact readInto_heap _ _ _ _ hg
  have e8 : i.heap = g.heap := readInto_heap _ _ _ _ hi
  have e9 : j.heap = i.heap := readInto_heap _ _ _ _ hj
  have e10 : s1.heap = j.heap := by
    simp only [Option.some.injEq] at hfin
    rw [← hfin]
    rfl
  rw [e10, e9, e8, e7, e6, e5, e4, e3, e2, e1]

/-! ## The claims -/

/-- C1. With the buffer initialised to `[0.0, 1.0, ..., 9.0]` and 4-byte
elements, in a block that the `w`-bit address value can address, the routine
runs to its end and every one-element-forward read whose byte offset is applied
before the cast, or which uses element syntax (lines 32, 39, 44, 51, 56, 70 and
73), reads address `base + 4` and assigns `1.0`. -/
theorem forward_reads_yield_one (w base : Nat) (garbage : Nat → Float32)
    (h : base + 40 ≤ 2 ^ w) :
    ∃ s, PointerExampleInCPP w base garbage = some s ∧
      s.heap.cells = [0, 1, 2, 3, 4, 5, 6, 7, 8, 9] ∧
      s.assigned.map Prod.fst = [32, 39, 44, 51, 56, 61, 70, 73] ∧
      (∀ line ∈ [32, 39, 44, 51, 56, 70, 73], ∀ v, (line, v) ∈ s.assigned → v = 1) ∧
      (∀ line ∈ [32, 39, 44, 51, 56, 70, 73], ∀ a ∈ s.accessed, a.line = line →
        a.addr = base + sizeofFloat ∧ a.isWrite = false) := by
  refine ⟨finalState base, run_eq w base garbage h, ?_, ?_, ?_, ?_⟩
  · simp [finalState, afterInit, initialised_eq]
  · simp [finalState]
  · simp [finalState]
  · simp [finalState, afterInit, range_ten, sizeofFloat]

/-- The statement of C1 at a 64-bit address value and a block at address 4096. -/
theorem forward_reads_yield_one_witness :
    4096 + 40 ≤ 2 ^ 64 ∧
    ∃ s, PointerExampleInCPP 64 4096 (fun _ => 0) = some s ∧
      s.heap.cells = [0, 1, 2, 3, 4, 5, 6, 7, 8, 9] ∧
      s.assigned.map Prod.fst = [32, 39, 44, 51, 56, 61, 70, 73] ∧
      (∀ line ∈ [32, 39, 44, 51, 56, 70, 73], ∀ v, (line, v) ∈ s.assigned → v = 1) ∧
      (∀ line ∈ [32, 39, 44, 51, 56, 70, 73], ∀ a ∈ s.accessed, a.line = line →
        a.addr = 4096 + sizeofFloat ∧ a.isWrite = false) :=
  ⟨by decide, forward_reads_yield_one 64 4096 (fun _ => 0) (by decide)⟩

/-- C2. In a block that the `w`-bit address value can address, the misordered
read of line 61, where the byte count 4 is added after the cast, reads address
`base + 16`, which is element 4, and assigns `4.0`, not `1.0`; every other read
of the routine assigns `1.0`, so line 61 differs from each of them. -/
theorem misordered_read_yields_four (w base : Nat) (garbage : Nat → Float32)
    (h : base + 40 ≤ 2 ^ w) :
    ∃ s, PointerExampleInCPP w base garbage = some s ∧
      (61, (4 : Float32)) ∈ s.assigned ∧
      (∀ v, (61, v) ∈ s.assigned → v = 4 ∧ v ≠ 1) ∧
      (∀ line v, (line, v) ∈ s.assigned → line ≠ 61 → v = 1 ∧ v ≠ 4) ∧
      (∀ a ∈ s.accessed, a.line = 61 →
        a.addr = base + 4 * sizeofFloat ∧ s.heap.elementIndex ⟨a.addr⟩ = some 4) ∧
      s.heap.cells[4]? = some (floatOfInt 4) ∧ floatOfInt 4 = 4 := by
  refine ⟨finalState base, run_eq w base garbage h, ?_, ?_, ?_, ?_, ?_, ?_⟩
  · simp [finalState]
  · simp [finalState]
  · intro line v hv hne
    simp [finalState] at hv
    rcases hv with hv | hv | hv | hv | hv | hv | hv | hv
    all_goals first | (exact absurd hv.1 hne) | (rw [hv.2]; norm_num)
  · simp [finalState, afterInit, range_ten, sizeofFloat, Heap.elementIndex, initialised_eq]
  · simp [finalState, afterInit, initialised_eq, floatOfInt_small]
  · simp [floatOfInt_small]

/-- The statement of C2 at a 64-bit address value and a block at address 4096. -/
theorem misordered_read_yields_four_witness :
    4096 + 40 ≤ 2 ^ 64 ∧
    ∃ s, PointerExampleInCPP 64 4096 (fun _ => 0) = some s ∧
      (61, (4 : Float32)) ∈ s.assigned ∧
      (∀ v, (61, v) ∈ s.assigned → v = 4 ∧ v ≠ 1) ∧
      (∀ line v, (line, v) ∈ s.assigned → line ≠ 61 → v = 1 ∧ v ≠ 4) ∧
      (∀ a ∈ s.accessed, a.line = 61 →
        a.addr = 4096 + 4 * sizeofFloat ∧ s.heap.elementIndex ⟨a.addr⟩ = some 4) ∧
      s.heap.cells[4]? = some (floatOfInt 4) ∧ floatOfInt 4 = 4 :=
  ⟨by decide, misordered_read_yields_four 64 4096 (fun _ => 0) (by decide)⟩

/-- C3. For every base address and every initial content of the freshly
allocated block, the initialisation loop terminates without a failed access
and leaves a buffer of exactly 10 elements in which, for every `i < 10`,
element `i` holds `(float)i`, which is the number `i`. -/
theorem init_loop_fills_indices (base : Nat) (garbage : Nat → Float32) :
    ∃ s, allocAndInit base garbage = some (⟨base⟩, s) ∧
      s.heap.base = base ∧
      s.heap.cells.length = 10 ∧
      ∀ i, i < 10 → s.heap.cells[i]? = some (floatOfInt i) ∧ floatOfInt i = (i : ℚ) := by
  refine ⟨afterInit base, allocAndInit_eq base garbage, rfl, ?_, ?_⟩
  · simp [afterInit, initialised_eq]
  · intro i hi
    have hs : floatOfInt i = (i : ℚ) := floatOfInt_small i (by omega)
    refine ⟨?_, hs⟩
    rw [hs]
    simp only [afterInit, initialised_eq]
    interval_cases i <;> simp

/-- The statement of C3 at a block at address 4096 whose cells all start as 7.0, for element 3. -/
theorem init_loop_fills_indices_witness :
    ∃ s, allocAndInit 4096 (fun _ => 7) = some (⟨4096⟩, s) ∧
      s.heap.cells[3]? = some (floatOfInt 3) ∧ floatOfInt 3 = (3 : ℚ) := by
  obtain ⟨s, h1, _, _, h4⟩ := init_loop_fills_indices 4096 (fun _ => 7)
  exact ⟨s, h1, by simpa using h4 3 (by decide)⟩

/-- C5, as amended. In a block that the `w`-bit address value can address, the
values assigned to `doesItEqualOne`, in program order, are `1.0` five times
(lines 32, 39, 44, 51, 56), then `4.0` once (line 61), then `1.0` twice
(lines 70, 73). -/
theorem scratch_sequence (w base : Nat) (garbage : Nat → Float32)
    (h : base + 40 ≤ 2 ^ w) :
    ∃ s, PointerExampleInCPP w base garbage = some s ∧
      s.scratchValues = List.replicate 5 1 ++ [4] ++ List.replicate 2 1 ∧
      s.assigned.map Prod.fst = [32, 39, 44, 51, 56, 61, 70, 73] := by
  refine ⟨finalState base, run_eq w base garbage h, ?_, ?_⟩
  · simp [State.scratchValues, finalState, List.replicate]
  · simp [finalState]

/-- The amended C5 at a 64-bit address value and a block at address 4096. -/
theorem scratch_sequence_witness :
    4096 + 40 ≤ 2 ^ 64 ∧
    ∃ s, PointerExampleInCPP 64 4096 (fun _ => 0) = some s ∧
      s.scratchValues = List.replicate 5 1 ++ [4] ++ List.replicate 2 1 ∧
      s.assigned.map Prod.fst = [32, 39, 44, 51, 56, 61, 70, 73] :=
  ⟨by decide, scratch_sequence 64 4096 (fun _ => 0) (by decide)⟩

/-- C5, as stated, fails. For a block at address 4096 and a 64-bit address
value the routine runs to its end, the sixth value assigned to `doesItEqualOne`
is `4.0`, and so the sequence does not start with `1.0` six times followed by
`4.0` and `1.0`. -/
theorem scratch_sequence_not_six_ones :
    ∃ s, PointerExampleInCPP 64 4096 (fun _ => 0) = some s ∧
      s.scratchValues[5]? = some 4 ∧
      ¬ ∃ rest, s.scratchValues = List.replicate 6 1 ++ [4] ++ 1 :: rest := by
  refine ⟨finalState 4096, run_eq 64 4096 _ (by decide), ?_, ?_⟩
  · simp [State.scratchValues, finalState]
  · rintro ⟨rest, hr⟩
    have h5 := congrArg (fun l => l[5]?) hr
    simp [State.scratchValues, finalState, List.replicate] at h5

/-- C6. In a block that the `w`-bit address value can address, the routine runs
to its end, so no dereference takes the out-of-bounds branch; it performs 18
dereferences, the 10 writes of the loop and 8 reads, and each of them is at an
address at or above `base`, at a byte offset that is a multiple of 4, of an
element index below 10.  The misordered read of line 61 is at `base + 16`,
element 4. -/
theorem accesses_in_bounds (w base : Nat) (garbage : Nat → Float32)
    (h : base + 40 ≤ 2 ^ w) :
    ∃ s, PointerExampleInCPP w base garbage = some s ∧
      s.heap.base = base ∧ s.heap.cells.length = 10 ∧
      s.accessed.length = 18 ∧
      (s.accessed.filter (fun a => a.isWrite)).length = 10 ∧
      (∀ a ∈ s.accessed,
        base ≤ a.addr ∧ (a.addr - base) % sizeofFloat = 0 ∧
        (a.addr - base) / sizeofFloat < 10 ∧
        s.heap.elementIndex ⟨a.addr⟩ = some ((a.addr - base) / sizeofFloat)) ∧
      (⟨61, false, base + 16⟩ : Access) ∈ s.accessed ∧
      s.heap.elementIndex ⟨base + 16⟩ = some 4 := by
  refine ⟨finalState base, run_eq w base garbage h, rfl, ?_, ?_, ?_, ?_, ?_, ?_⟩
  · simp [finalState, afterInit, initialised_eq]
  · simp [finalState, afterInit]
  · simp [finalState, afterInit, range_ten]
  · simp [finalState, afterInit, range_ten, sizeofFloat, Heap.elementIndex, initialised_eq]
  · simp [finalState]
  · simp [finalState, afterInit, sizeofFloat, Heap.elementIndex, initialised_eq]

/-- The statement of C6 at a 64-bit address value and a block at address 4096. -/
theorem accesses_in_bounds_witness :
    4096 + 40 ≤ 2 ^ 64 ∧
    ∃ s, PointerExampleInCPP 64 4096 (fun _ => 0) = some s ∧
      s.heap.base = 4096 ∧ s.heap.cells.length = 10 ∧
      s.accessed.length = 18 ∧
      (s.accessed.filter (fun a => a.isWrite)).length = 10 ∧
      (∀ a ∈ s.accessed,
        4096 ≤ a.addr ∧ (a.addr - 4096) % sizeofFloat = 0 ∧
        (a.addr - 4096) / sizeofFloat < 10 ∧
        s.heap.elementIndex ⟨a.addr⟩ = some ((a.addr - 4096) / sizeofFloat)) ∧
      (⟨61, false, 4096 + 16⟩ : Access) ∈ s.accessed ∧
      s.heap.elementIndex ⟨4096 + 16⟩ = some 4 :=
  ⟨by decide, accesses_in_bounds 64 4096 (fun _ => 0) (by decide)⟩

/-- C7. For every base address held by `myFloatPtr`, every width `w` and every
state, line 82, `(unsigned long) &myFloatPtr[0]`, stores in `floatArrayAddress`
the value that line 86, `(unsigned long) myFloatPtr`, stores, which is the
value line 21 first stored there. -/
theorem element_zero_address_is_base (w : Nat) (myFloatPtr : FloatPtr) (s : State) :
    (line82 w myFloatPtr s).floatArrayAddress = (line86 w myFloatPtr s).floatArrayAddress ∧
    (line82 w myFloatPtr s).floatArrayAddress = (line21 w myFloatPtr s).floatArrayAddress ∧
    (line82 w myFloatPtr s).floatArrayAddress = some (ptrToULong w myFloatPtr) ∧
    elemAddr myFloatPtr 0 = myFloatPtr := by
  have e : elemAddr myFloatPtr 0 = myFloatPtr := by
    simp [elemAddr, ptrAdd]
  simp [line82, line86, line21, e]

/-- C8. Adding `n` to an element pointer advances the address by `n * 4` bytes,
for every pointer and every `n`; adding `n` to a `w`-bit address value advances
it by exactly `n` whenever the sum is below `2 ^ w`.  Hence, in a 10-element
block that the address value can address, the misordered pointer of line 61 is
`base + 16`, element 4, and the correctly ordered pointer of line 56 is
`base + 4`, element 1. -/
theorem pointer_step_is_element_scaled (w base : Nat) (cells : List Float32)
    (h : base + 40 ≤ 2 ^ w) (hc : cells.length = 10) :
    (∀ (p : FloatPtr) (n : Nat), (ptrAdd p n).addr = p.addr + n * 4) ∧
    (∀ a n : Nat, a + n < 2 ^ w → ulongAdd w a n = a + n) ∧
    (castThenOffset (ptrToULong w ⟨base⟩)).addr = base + 16 ∧
    Heap.elementIndex ⟨base, cells⟩ (castThenOffset (ptrToULong w ⟨base⟩)) = some 4 ∧
    (offsetThenCast w (ptrToULong w ⟨base⟩)).addr = base + 4 ∧
    Heap.elementIndex ⟨base, cells⟩ (offsetThenCast w (ptrToULong w ⟨base⟩)) = some 1 := by
  have h0 : base % 2 ^ w = base := by simpa using mod_of_fits w base 0 h (by decide)
  have h4 : (base + 4) % 2 ^ w = base + 4 := mod_of_fits w base 4 h (by decide)
  refine ⟨fun p n => rfl, fun a n hlt => Nat.mod_eq_of_lt hlt, ?_, ?_, ?_, ?_⟩
  · simp [castThenOffset, ptrAdd, ulongToPtr, ptrToULong, sizeofFloat, h0]
  · simp [castThenOffset, ptrAdd, ulongToPtr, ptrToULong, sizeofFloat, h0,
      Heap.elementIndex, hc]
  · simp [offsetThenCast, ulongAdd, ulongToPtr, ptrToULong, sizeofFloat, h0, h4]
  · simp [offsetThenCast, ulongAdd, ulongToPtr, ptrToULong, sizeofFloat, h0, h4,
      Heap.elementIndex, hc]

/-- The statement of C8 at a 64-bit address value and the initialised block at address 4096. -/
theorem pointer_step_is_element_scaled_witness :
    4096 + 40 ≤ 2 ^ 64 ∧ initialised.length = 10 ∧
    (∀ (p : FloatPtr) (n : Nat), (ptrAdd p n).addr = p.addr + n * 4) ∧
    (∀ a n : Nat, a + n < 2 ^ 64 → ulongAdd 64 a n = a + n) ∧
    (castThenOffset (ptrToULong 64 ⟨4096⟩)).addr = 4096 + 16 ∧
    Heap.elementIndex ⟨4096, initialised⟩ (castThenOffset (ptrToULong 64 ⟨4096⟩)) = some 4 ∧
    (offsetThenCast 64 (ptrToULong 64 ⟨4096⟩)).addr = 4096 + 4 ∧
    Heap.elementIndex ⟨4096, initialised⟩ (offsetThenCast 64 (ptrToULong 64 ⟨4096⟩)) = some 1 :=
  ⟨by decide, by simp [initialised],
    pointer_step_is_element_scaled 64 4096 initialised (by decide) (by simp [initialised])⟩

/-- C9. No step after the initialisation loop writes to the buffer: from every
state, lines 21-91 leave the block as they found it.  In a block that the
`w`-bit address value can address the routine runs to its end; the block then
still has 10 elements with element `i` holding `i` for every `i < 10`, every
logged write is one of line 16, `doesItEqualOne` ends as `1.0` and
`floatArrayAddress` as `base + 4`. -/
theorem later_steps_leave_buffer (w base : Nat) (garbage : Nat → Float32)
    (h : base + 40 ≤ 2 ^ w) :
    (∀ (p : FloatPtr) (t t1 : State), demonstrate w p t = some t1 → t1.heap = t.heap) ∧
    ∃ s0 s1, allocAndInit base garbage = some (⟨base⟩, s0) ∧
      demonstrate w ⟨base⟩ s0 = some s1 ∧
      PointerExampleInCPP w base garbage = some s1 ∧
      s1.heap = s0.heap ∧
      s1.heap.cells.length = 10 ∧
      (∀ i, i < 10 → s1.heap.cells[i]? = some (floatOfInt i) ∧ floatOfInt i = (i : ℚ)) ∧
      (∀ a ∈ s1.accessed, a.isWrite = true → a.line = 16) ∧
      s1.doesItEqualOne = some 1 ∧
      s1.floatArrayAddress = some (base + 4) := by
  refine ⟨fun p t t1 ht => demonstrate_heap w p t t1 ht, afterInit base, finalState base,
    allocAndInit_eq base garbage, demonstrate_eq w base h, run_eq w base garbage h,
    rfl, ?_, ?_, ?_, rfl, rfl⟩
  · simp [finalState, afterInit, initialised_eq]
  · intro i hi
    have hs : floatOfInt i = (i : ℚ) := floatOfInt_small i (by omega)
    refine ⟨?_, hs⟩
    rw [hs]
    simp only [finalState, afterInit, initialised_eq]
    interval_cases i <;> simp
  · simp [finalState, afterInit, range_ten]

/-- The second part of C9 at a 64-bit address value and a block at address 4096. -/
theorem later_steps_leave_buffer_witness :
    4096 + 40 ≤ 2 ^ 64 ∧
    ∃ s0 s1, allocAndInit 4096 (fun _ => 0) = some (⟨4096⟩, s0) ∧
      demonstrate 64 ⟨4096⟩ s0 = some s1 ∧
      PointerExampleInCPP 64 4096 (fun _ => 0) = some s1 ∧
      s1.heap = s0.heap ∧
      s1.heap.cells.length = 10 ∧
      (∀ i, i < 10 → s1.heap.cells[i]? = some (floatOfInt i) ∧ floatOfInt i = (i : ℚ)) ∧
      (∀ a ∈ s1.accessed, a.isWrite = true → a.line = 16) ∧
      s1.doesItEqualOne = some 1 ∧
      s1.floatArrayAddress = some (4096 + 4) :=
  ⟨by decide, (later_steps_leave_buffer 64 4096 (fun _ => 0) (by decide)).2⟩

/-- C10. For an address value of `w` bits and every base address `b` with
`b + 40 ≤ 2 ^ w`: casting the base pointer to the integer, adding
`sizeof(float)` and casting back gives the pointer to element 1, at address
`b + 4`, both along lines 21, 27, 31 and in the expression of line 56; and
casting any pointer into the block to the integer and back gives that pointer
again. -/
theorem cast_round_trip (w b : Nat) (s : State) (h : b + 40 ≤ 2 ^ w) :
    offsetThenCast w (ptrToULong w ⟨b⟩) = ⟨b + 4⟩ ∧
    offsetThenCast w (ptrToULong w ⟨b⟩) = elemAddr ⟨b⟩ 1 ∧
    (line27 w (line21 w ⟨b⟩ s)).bind line31 = some (elemAddr ⟨b⟩ 1) ∧
    (∀ cells : List Float32, cells.length = 10 →
      Heap.elementIndex ⟨b, cells⟩ (offsetThenCast w (ptrToULong w ⟨b⟩)) = some 1) ∧
    (∀ a, b ≤ a → a < b + 40 → ulongToPtr (ptrToULong w ⟨a⟩) = ⟨a⟩) := by
  have h0 : b % 2 ^ w = b := by simpa using mod_of_fits w b 0 h (by decide)
  have h4 : (b + 4) % 2 ^ w = b + 4 := mod_of_fits w b 4 h (by decide)
  refine ⟨?_, ?_, ?_, ?_, ?_⟩
  · simp [offsetThenCast, ulongAdd, ulongToPtr, ptrToULong, sizeofFloat, h0, h4]
  · simp [offsetThenCast, ulongAdd, ulongToPtr, ptrToULong, sizeofFloat, h0, h4, elemAddr,
      ptrAdd]
  · simp [line21, line27, line31, ulongAdd, ulongToPtr, ptrToULong, sizeofFloat, h0, h4,
      elemAddr, ptrAdd]
  · intro cells hc
    simp [offsetThenCast, ulongAdd, ulongToPtr, ptrToULong, sizeofFloat, h0, h4,
      Heap.elementIndex, hc]
  · intro a hba hab
    have ha : a % 2 ^ w = a := Nat.mod_eq_of_lt (by omega)
    simp [ulongToPtr, ptrToULong, ha]

/-- The statement of C10 at a 64-bit address value and a block at address 4096. -/
theorem cast_round_trip_witness :
    4096 + 40 ≤ 2 ^ 64 ∧
    offsetThenCast 64 (ptrToULong 64 ⟨4096⟩) = ⟨4096 + 4⟩ ∧
    offsetThenCast 64 (ptrToULong 64 ⟨4096⟩) = elemAddr ⟨4096⟩ 1 ∧
    (line27 64 (line21 64 ⟨4096⟩ (afterInit 4096))).bind line31 = some (elemAddr ⟨4096⟩ 1) ∧
    (∀ cells : List Float32, cells.length = 10 →
      Heap.elementIndex ⟨4096, cells⟩ (offsetThenCast 64 (ptrToULong 64 ⟨4096⟩)) = some 1) ∧
    (∀ a, 4096 ≤ a → a < 4096 + 40 → ulongToPtr (ptrToULong 64 ⟨a⟩) = ⟨a⟩) :=
  ⟨by decide, cast_round_trip 64 4096 (afterInit 4096) (by decide)⟩

end PointerComponent
